import Mathlib

/-
Verification of the CTC100 serial driver (CTC100.py) against its
natural-language specification.

The embedding models Python byte strings as `List Nat` (one entry per
byte) and Python text strings as `List Char`.  The serial transport is
modelled as a function `readAt : Nat -> List Nat` giving the bytes
returned by the k-th call to `device.read()`, and wall-clock time as a
function `clock : Nat -> Rat` giving the value of `time.time()` at its
k-th call (call 0 is the one that initialises `t1`; call k, for k >= 1,
is the one made inside loop iteration k).  The polling loop is given
explicit fuel, and returns `none` when the fuel runs out before the
loop exits; all theorems about the loop supply enough fuel.

Numeric values are modelled exactly over the rationals: the substrings
matched by the numeric pattern are finite decimal strings, which the
embedding parses exactly rather than rounding to IEEE floats.
-/

/-- Bytes of a pure-ASCII Python string literal. -/
def asciiBytes (s : String) : List Nat := s.data.map Char.toNat

/-- Character list of a Lean string literal (model of a Python str). -/
def chars (s : String) : List Char := s.data

/-- The two-byte response terminator, the bytes of the string literal
the loop compares against (carriage return, line feed). -/
def crlf : List Nat := [13, 10]

/-- Python slicing `s[-2:]`: the last `min 2 (length s)` elements. -/
def lastTwo {α : Type} (l : List α) : List α := l.drop (l.length - 2)

/-- Continuation test of the polling loop in `write`, from the source:
`len(response) == 1 or response[-2:] != "\r\n"`. -/
def contCond (r : List Nat) : Bool := r.length == 1 || lastTwo r != crlf

/-- The polling loop body of `write`.  `i` is the index of the next
`device.read()` call (and of the `time.time()` call made right after
it); `r` is the accumulated response.  Each iteration appends the next
chunk, then breaks if the elapsed time exceeds 0.1 seconds. -/
def writeRun (readAt : Nat → List Nat) (clock : Nat → ℚ) :
    Nat → Nat → List Nat → Option (List Nat)
  | 0, _, _ => none
  | fuel + 1, i, r =>
    if contCond r then
      if clock i - clock 0 > 1 / 10 then some (r ++ readAt i)
      else writeRun readAt clock fuel (i + 1) (r ++ readAt i)
    else some r

/-- The `write` method response loop: an initial `device.read()`, then
the polling loop until the terminator test succeeds or the 100 ms
deadline passes. -/
def write (readAt : Nat → List Nat) (clock : Nat → ℚ) (fuel : Nat) :
    Option (List Nat) :=
  writeRun readAt clock fuel 1 (readAt 0)

/-- Bytes accumulated by the loop after reads 0 up to m. -/
def accumW (readAt : Nat → List Nat) : Nat → List Nat
  | 0 => readAt 0
  | m + 1 => accumW readAt m ++ readAt (m + 1)

/-- Line actually sent over the wire for a command: the source appends
a single newline before encoding. -/
def sendLine (cmd : List Char) : List Char := cmd ++ [ '\n']

/-- Model of `var.replace(" ", "")`: remove every space character
(only the space character, not other whitespace). -/
def stripSpaces (v : List Char) : List Char := v.filter (fun c => c ≠ ' ')

/-- Spec-side definition, following the wording of the specification:
the whitespace-stripped form of a variable name removes every
whitespace character.  To be compared with `stripSpaces`, the behaviour
of the code, which removes only the space character. -/
def stripWhitespaceSpec (v : List Char) : List Char :=
  v.filter (fun c => !c.isWhitespace)

/-- Model of `"({})".format(val)`: wrap a value literal in one pair of
parentheses. -/
def wrapParens (val : List Char) : List Char := ['('] ++ val ++ [')']

/-- Command built by `get_variable`: strip spaces, append a question
mark. -/
def format_query (var : List Char) : List Char := stripSpaces var ++ [ '?']

/-- Command built by `set_variable`: strip spaces from the name, wrap
the value in parentheses, join with the assignment operator. -/
def format_assignment (var val : List Char) : List Char :=
  stripSpaces var ++ [ ' ', '=', ' '] ++ wrapParens val

/-- Command built by `increment_variable`: like assignment with the
increment operator. -/
def format_increment (var val : List Char) : List Char :=
  stripSpaces var ++ [ ' ', '+', '=', ' '] ++ wrapParens val

/-- A channel argument: either an already-qualified name (a Python
str) or a numeric input-channel index. -/
inductive ChannelRef : Type
  | num (n : Int)
  | name (s : List Char)
deriving DecidableEq

/-- Channel normalisation appearing in `read_numeric`, `setAlarm` and
`disableAlarm`: a string is used verbatim, anything else is rendered
as `In<channel>`. -/
def resolve_channel : ChannelRef → List Char
  | ChannelRef.name s => s
  | ChannelRef.num n => chars "In" ++ chars (toString n)

/-- Whether a byte is a UTF-8 continuation byte. -/
def utf8Cont (b : Nat) : Bool := 0x80 ≤ b && b ≤ 0xBF

/-- Strict UTF-8 decoding with explicit fuel (any fuel of at least the
length of the list gives the answer).  Returns `none` exactly when
Python `bytes.decode("utf-8")` raises UnicodeDecodeError. -/
def utf8DecodeGo : Nat → List Nat → Option (List Char)
  | 0, [] => some []
  | 0, _ :: _ => none
  | _ + 1, [] => some []
  | fuel + 1, b1 :: rest =>
    if b1 ≤ 0x7F then
      (utf8DecodeGo fuel rest).map (fun cs => Char.ofNat b1 :: cs)
    else if 0xC2 ≤ b1 && b1 ≤ 0xDF then
      match rest with
      | b2 :: rest2 =>
        if utf8Cont b2 then
          (utf8DecodeGo fuel rest2).map
            (fun cs => Char.ofNat ((b1 - 0xC0) * 0x40 + (b2 - 0x80)) :: cs)
        else none
      | [] => none
    else if 0xE0 ≤ b1 && b1 ≤ 0xEF then
      match rest with
      | b2 :: b3 :: rest3 =>
        if (if b1 = 0xE0 then 0xA0 ≤ b2 && b2 ≤ 0xBF
            else if b1 = 0xED then 0x80 ≤ b2 && b2 ≤ 0x9F
            else utf8Cont b2) && utf8Cont b3 then
          (utf8DecodeGo fuel rest3).map
            (fun cs => Char.ofNat
              ((b1 - 0xE0) * 0x1000 + (b2 - 0x80) * 0x40 + (b3 - 0x80)) :: cs)
        else none
      | _ => none
    else if 0xF0 ≤ b1 && b1 ≤ 0xF4 then
      match rest with
      | b2 :: b3 :: b4 :: rest4 =>
        if (if b1 = 0xF0 then 0x90 ≤ b2 && b2 ≤ 0xBF
            else if b1 = 0xF4 then 0x80 ≤ b2 && b2 ≤ 0x8F
            else utf8Cont b2) && utf8Cont b3 && utf8Cont b4 then
          (utf8DecodeGo fuel rest4).map
            (fun cs => Char.ofNat
              ((b1 - 0xF0) * 0x40000 + (b2 - 0x80) * 0x1000 +
                (b3 - 0x80) * 0x40 + (b4 - 0x80)) :: cs)
        else none
      | _ => none
    else none

/-- Strict UTF-8 decoding of a byte string, model of
`raw.decode("utf-8")`. -/
def utf8Decode (l : List Nat) : Option (List Char) := utf8DecodeGo l.length l

/-- Attempt to match `\d*\.\d+` at the start of the text: a maximal
run of digits, a literal point, then a mandatory nonempty run of
digits (greedy). -/
def digitsDotDigits (cs : List Char) : Option (List Char) :=
  let ds := cs.takeWhile Char.isDigit
  match cs.drop ds.length with
  | '.' :: rest2 =>
    let fs := rest2.takeWhile Char.isDigit
    if fs = [] then none else some (ds ++ '.' :: fs)
  | _ => none

/-- Attempt to match `[-+]?\d*\.\d+` at the start of the text,
including the backtracking of the optional sign. -/
def matchFrom (cs : List Char) : Option (List Char) :=
  match cs with
  | c :: rest =>
    if c = '-' ∨ c = '+' then
      match digitsDotDigits rest with
      | some m => some (c :: m)
      | none => digitsDotDigits cs
    else digitsDotDigits cs
  | [] => none

/-- Model of `re.search(r"[-+]?\d*\.\d+", text)`: the match at the
leftmost position where the pattern matches, if any. -/
def reSearch (cs : List Char) : Option (List Char) :=
  match matchFrom cs with
  | some m => some m
  | none =>
    match cs with
    | [] => none
    | _ :: rest => reSearch rest

/-- Numeric value of a run of decimal digit characters. -/
def digitsVal (ds : List Char) : Nat :=
  ds.foldl (fun a c => 10 * a + (c.toNat - 48)) 0

/-- Exact value of an unsigned match `\d*\.\d+`. -/
def parseUnsigned (cs : List Char) : ℚ :=
  let ip := cs.takeWhile Char.isDigit
  match cs.drop ip.length with
  | '.' :: fp => (digitsVal ip : ℚ) + (digitsVal fp : ℚ) / (10 : ℚ) ^ fp.length
  | _ => (digitsVal ip : ℚ)

/-- Exact value of a matched substring, model of `float(match.group())`
(the matched substrings are always finite decimals, so the rational
value is exact). -/
def parseDecimal (cs : List Char) : ℚ :=
  match cs with
  | '-' :: rest => -(parseUnsigned rest)
  | '+' :: rest => parseUnsigned rest
  | _ => parseUnsigned cs

/-- Python exceptions that `read_numeric` can raise: UnicodeDecodeError from
`bytes.decode`, or the RuntimeError used as the ReadError for a
channel. -/
inductive PyError : Type
  | unicodeDecodeError
  | runtimeError (msg : List Char)
deriving DecidableEq

instance : DecidableEq (Except PyError ℚ) := fun a b =>
  match a, b with
  | Except.ok x, Except.ok y =>
    if h : x = y then isTrue (congrArg Except.ok h)
    else isFalse (fun hh => h (Except.ok.inj hh))
  | Except.ok _, Except.error _ => isFalse (fun hh => Except.noConfusion hh)
  | Except.error _, Except.ok _ => isFalse (fun hh => Except.noConfusion hh)
  | Except.error x, Except.error y =>
    if h : x = y then isTrue (congrArg Except.error h)
    else isFalse (fun hh => h (Except.error.inj hh))

/-- The query command sent by `read_numeric`: the resolved channel with
`.value` appended, through `get_variable`. -/
def readQueryCmd (ch : ChannelRef) : List Char :=
  format_query (resolve_channel ch ++ chars ".value")

/-- The `read_numeric` method.  `dev` maps a command text to the raw bytes the
response loop hands back for it.  The raw response is decoded as
UTF-8 (failure raises UnicodeDecodeError), scanned with the numeric
pattern, and the first match is parsed; with no match, the RuntimeError
naming the channel is raised. -/
def read_numeric (dev : List Char → List Nat) (ch : ChannelRef) : Except PyError ℚ :=
  match utf8Decode (dev (readQueryCmd ch)) with
  | none => Except.error PyError.unicodeDecodeError
  | some text =>
    match reSearch text with
    | some m => Except.ok (parseDecimal m)
    | none =>
      Except.error (PyError.runtimeError
        (chars "Unable to read from channel " ++ resolve_channel ch))

/-- The `setAlarm` method: the sequence of commands it sends, and its
return value (the response to the final `alarm.mode = (Level)`
assignment). -/
def setAlarm (dev : List Char → List Nat) (ch : ChannelRef)
    (tmin tmax : List Char) : List (List Char) × Option (List Nat) :=
  ([format_assignment (resolve_channel ch ++ chars ".alarm.sound") (chars "4 beeps"),
    format_assignment (resolve_channel ch ++ chars ".alarm.min") tmin,
    format_assignment (resolve_channel ch ++ chars ".alarm.max") tmax,
    format_assignment (resolve_channel ch ++ chars ".alarm.mode") (chars "Level")],
   some (dev (format_assignment (resolve_channel ch ++ chars ".alarm.mode") (chars "Level"))))

/-- The `disableAlarm` method: sends the `alarm.mode = (Off)`
assignment and returns None (the response is bound to a local and
dropped). -/
def disableAlarm (_dev : List Char → List Nat) (ch : ChannelRef) :
    List (List Char) × Option (List Nat) :=
  ([format_assignment (resolve_channel ch ++ chars ".alarm.mode") (chars "Off")], none)

/-- Observable events of the tuning procedure: a command handed to
`write`, a call to `time.sleep`, or a diagnostic print. -/
inductive TuneEvent : Type
  | sent (cmd : List Char)
  | slept (secs : ℚ)
  | printed (msg : List Char)
deriving DecidableEq

/-- Command sent by `enableHeater`. -/
def enableHeaterCmd : List Char := chars "outputEnable on"

/-- Command sent by `disableHeater`. -/
def disableHeaterCmd : List Char := chars "outputEnable off"

/-- Rendering of `"Out{}".format(channel)`. -/
def outCh (ch : Nat) : List Char := chars "Out" ++ chars (toString ch)

/-- Events of `tunePID` up to and including the final PID.Mode query:
the two tuning parameters, the heater enable, tuning type and mode set
to Auto, the sleep for `Lag` seconds, then the query.  `pyStr` models
Python `str` rendering of the numeric arguments. -/
def preEvents (pyStr : ℚ → List Char) (ch : Nat) (StepY Lag : ℚ) :
    List TuneEvent :=
  [TuneEvent.sent (format_assignment (outCh ch ++ chars ".Tune.StepY") (pyStr StepY)),
   TuneEvent.sent (format_assignment (outCh ch ++ chars ".Tune.Lag") (pyStr Lag)),
   TuneEvent.sent enableHeaterCmd,
   TuneEvent.sent (format_assignment (outCh ch ++ chars ".Tune.Type") (chars "Auto")),
   TuneEvent.sent (format_assignment (outCh ch ++ chars ".Tune.Mode") (chars "Auto")),
   TuneEvent.slept Lag,
   TuneEvent.sent (format_query (outCh ch ++ chars ".PID.Mode"))]

/-- Events of the success branch of `tunePID`: the success print, then
`disablePID` (heater off and PID.Mode = (Off)), then `menu 4`. -/
def tuneSuccessEvents (ch : Nat) : List TuneEvent :=
  [TuneEvent.printed (chars "The PID tuning was successful! The parameters have been updated"),
   TuneEvent.sent disableHeaterCmd,
   TuneEvent.sent (format_assignment (outCh ch ++ chars ".PID.Mode") (chars "Off")),
   TuneEvent.sent (chars "menu 4")]

/-- Events of the failure branch of `tunePID`: only the diagnostic
print. -/
def tuneFailEvents : List TuneEvent :=
  [TuneEvent.printed (chars "The PID tuning failed! Try a higher value for StepY, Lag, or both.")]

/-- The `tunePID` method as its trace of observable events.  The
decoded reply to the final query is compared with the exact text
`On\r\n`; `none` models the UnicodeDecodeError raised when the reply
does not decode. -/
def tunePID (dev : List Char → List Nat) (pyStr : ℚ → List Char)
    (ch : Nat) (StepY Lag : ℚ) : Option (List TuneEvent) :=
  match utf8Decode (dev (format_query (outCh ch ++ chars ".PID.Mode"))) with
  | none => none
  | some text =>
    if text = chars "On\r\n" then
      some (preEvents pyStr ch StepY Lag ++ tuneSuccessEvents ch)
    else
      some (preEvents pyStr ch StepY Lag ++ tuneFailEvents)

example : format_query (chars "In1. value") = chars "In1.value?" := by decide

example : utf8Decode (asciiBytes "On\r\n") = some (chars "On\r\n") := by decide

example : utf8Decode [255] = none := by decide

example : reSearch (chars "Temp: -0.5 C\r\n") = some (chars "-0.5") := by decide

example : reSearch (chars "23.841\r\n") = some (chars "23.841") := by decide

example : reSearch (chars "No Value\r\n") = none := by decide

example : parseDecimal (chars "-0.5") = -(1 / 2 : ℚ) := by
  have h : parseDecimal (chars "-0.5") =
      -(((0 : ℕ) : ℚ) + ((5 : ℕ) : ℚ) / (10 : ℚ) ^ 1) := rfl
  rw [h]; norm_num

/-- The loop exits with the accumulated buffer `accumW readAt m` as
soon as read m makes the continuation test fail, provided no earlier
read did and the deadline check never fired on the way. -/
theorem writeRun_exit (readAt : Nat → List Nat) (clock : Nat → ℚ) (m : Nat)
    (hexit : contCond (accumW readAt m) = false)
    (hfirst : ∀ i, i < m → contCond (accumW readAt i) = true)
    (hclk : ∀ i, 1 ≤ i → i ≤ m → ¬(clock i - clock 0 > 1 / 10)) :
    ∀ d j fuel, j + d = m → d + 1 ≤ fuel →
      writeRun readAt clock fuel (j + 1) (accumW readAt j) = some (accumW readAt m) := by
  intro d
  induction d with
  | zero =>
    intro j fuel hjd hfu
    have hj : j = m := by omega
    subst hj
    obtain ⟨f, rfl⟩ : ∃ f, fuel = f + 1 := ⟨fuel - 1, by omega⟩
    simp only [writeRun, hexit]
    simp
  | succ d ih =>
    intro j fuel hjd hfu
    obtain ⟨f, rfl⟩ : ∃ f, fuel = f + 1 := ⟨fuel - 1, by omega⟩
    have hc : contCond (accumW readAt j) = true := hfirst j (by omega)
    have hnt : ¬(clock (j + 1) - clock 0 > 1 / 10) := hclk (j + 1) (by omega) (by omega)
    simp only [writeRun, hc, if_true, if_neg hnt]
    exact ih (j + 1) f (by omega) (by omega)

/-- Instance of `writeRun_exit` for a whole `write` call. -/
theorem write_exit (readAt : Nat → List Nat) (clock : Nat → ℚ) (m fuel : Nat)
    (hexit : contCond (accumW readAt m) = false)
    (hfirst : ∀ i, i < m → contCond (accumW readAt i) = true)
    (hclk : ∀ i, 1 ≤ i → i ≤ m → ¬(clock i - clock 0 > 1 / 10))
    (hfuel : m + 1 ≤ fuel) :
    write readAt clock fuel = some (accumW readAt m) :=
  writeRun_exit readAt clock m hexit hfirst hclk m 0 fuel (by omega) (by omega)

/-- When the continuation test never fails, the loop breaks at the
first deadline check that fires and returns the buffer accumulated at
that point. -/
theorem writeRun_timeout (readAt : Nat → List Nat) (clock : Nat → ℚ) (j : Nat)
    (hnc : ∀ i, contCond (accumW readAt i) = true)
    (hj : clock j - clock 0 > 1 / 10)
    (hfirst : ∀ i, 1 ≤ i → i < j → ¬(clock i - clock 0 > 1 / 10)) :
    ∀ d k fuel, k + 1 + d = j → d + 1 ≤ fuel →
      writeRun readAt clock fuel (k + 1) (accumW readAt k) = some (accumW readAt j) := by
  intro d
  induction d with
  | zero =>
    intro k fuel hkd hfu
    have hk : k + 1 = j := by omega
    subst hk
    obtain ⟨f, rfl⟩ : ∃ f, fuel = f + 1 := ⟨fuel - 1, by omega⟩
    simp only [writeRun, hnc k, if_true, if_pos hj]
    rfl
  | succ d ih =>
    intro k fuel hkd hfu
    obtain ⟨f, rfl⟩ : ∃ f, fuel = f + 1 := ⟨fuel - 1, by omega⟩
    have hnt : ¬(clock (k + 1) - clock 0 > 1 / 10) := hfirst (k + 1) (by omega) (by omega)
    simp only [writeRun, hnc k, if_true, if_neg hnt]
    exact ih (k + 1) f (by omega) (by omega)

/-- Helper: stripping spaces is idempotent. -/
theorem stripSpaces_idem (v : List Char) :
    stripSpaces (stripSpaces v) = stripSpaces v := by
  simp [stripSpaces, List.filter_filter]

/-- Helper: the last two elements of a list ending in two given
elements are exactly those two. -/
theorem lastTwo_concat_concat {α : Type} (l : List α) (a b : α) :
    lastTwo (l ++ [a, b]) = [a, b] := by
  have h2 : (l ++ [a, b]).length - 2 = l.length := by
    simp only [List.length_append, List.length_cons, List.length_nil]
    omega
  show (l ++ [a, b]).drop ((l ++ [a, b]).length - 2) = [a, b]
  rw [h2]
  exact List.drop_left l [a, b]

/-- C1 counterexample: the stream `ab CRLF cd CRLF` ends in CRLF, but
delivered one byte at a time the loop exits at the first CRLF and the
returned bytes are not the full stream. -/
theorem write_full_stream_counterexample :
    lastTwo ([97, 98, 13, 10, 99, 100, 13, 10] : List Nat) = crlf ∧
    accumW (fun i => [[97], [98], [13], [10], [99], [100], [13], [10]].getD i ([] : List Nat)) 7 =
      [97, 98, 13, 10, 99, 100, 13, 10] ∧
    write (fun i => [[97], [98], [13], [10], [99], [100], [13], [10]].getD i ([] : List Nat))
      (fun _ => (0 : ℚ)) 20 = some [97, 98, 13, 10] ∧
    ([97, 98, 13, 10] : List Nat) ≠ [97, 98, 13, 10, 99, 100, 13, 10] := by
  refine ⟨by decide, by decide, ?_, by decide⟩
  have h := write_exit
    (fun i => [[97], [98], [13], [10], [99], [100], [13], [10]].getD i ([] : List Nat))
    (fun _ => (0 : ℚ)) 3 20 (by decide) (by decide)
    (fun i h1 h2 => by norm_num) (by omega)
  have h2 : accumW
      (fun i => [[97], [98], [13], [10], [99], [100], [13], [10]].getD i ([] : List Nat)) 3 =
      [97, 98, 13, 10] := by decide
  rw [h, h2]

/-- C1 (amended): for every chunked delivery and every clock that does
not trip the 100 ms deadline, `write` returns the bytes accumulated at
the first read after which the buffer has length at least 2 and ends
in CRLF, and that return value ends in CRLF.  When the delivery has no
earlier such point, this is the entire delivered stream including the
trailing CRLF; a stream with an earlier CRLF-terminated accumulation
point is returned only up to that point. -/
theorem write_returns_first_complete_response
    (readAt : Nat → List Nat) (clock : Nat → ℚ) (m fuel : Nat)
    (hend : 2 ≤ (accumW readAt m).length ∧ lastTwo (accumW readAt m) = crlf)
    (hfirst : ∀ i, i < m → contCond (accumW readAt i) = true)
    (hclk : ∀ i, 1 ≤ i → i ≤ m → ¬(clock i - clock 0 > 1 / 10))
    (hfuel : m + 1 ≤ fuel) :
    write readAt clock fuel = some (accumW readAt m) ∧
      lastTwo (accumW readAt m) = crlf := by
  have hexit : contCond (accumW readAt m) = false := by
    simp only [contCond, Bool.or_eq_false_iff, beq_eq_false_iff_ne, bne_eq_false_iff_eq]
    refine ⟨?_, hend.2⟩
    have := hend.1
    omega
  exact ⟨write_exit readAt clock m fuel hexit hfirst hclk hfuel, hend.2⟩

/-- C1 witness: the response `23.841 CRLF` delivered one byte at a
time is returned whole, CRLF included. -/
theorem write_first_complete_witness :
    write (fun i => [[50], [51], [46], [56], [52], [49], [13], [10]].getD i ([] : List Nat))
      (fun _ => (0 : ℚ)) 9 =
      some (accumW (fun i => [[50], [51], [46], [56], [52], [49], [13], [10]].getD i ([] : List Nat)) 7) ∧
    lastTwo (accumW (fun i => [[50], [51], [46], [56], [52], [49], [13], [10]].getD i ([] : List Nat)) 7) = crlf :=
  write_returns_first_complete_response _ _ 7 9 ⟨by decide, by decide⟩ (by decide)
    (fun i h1 h2 => by norm_num) (by omega)

/-- C4: when no accumulated buffer ever ends in CRLF, the loop breaks
at the first clock reading past the 0.1 second threshold and returns
whatever bytes were accumulated so far, without error. -/
theorem write_timeout_returns_accumulated
    (readAt : Nat → List Nat) (clock : Nat → ℚ) (j fuel : Nat)
    (hnc : ∀ i, lastTwo (accumW readAt i) ≠ crlf)
    (hj1 : 1 ≤ j) (hj : clock j - clock 0 > 1 / 10)
    (hfirst : ∀ i, 1 ≤ i → i < j → ¬(clock i - clock 0 > 1 / 10))
    (hfuel : j ≤ fuel) :
    write readAt clock fuel = some (accumW readAt j) := by
  have hnc2 : ∀ i, contCond (accumW readAt i) = true := by
    intro i
    simp only [contCond, Bool.or_eq_true, beq_iff_eq, bne_iff_ne, ne_eq]
    right
    exact hnc i
  exact writeRun_timeout readAt clock j hnc2 hj hfirst (j - 1) 0 fuel (by omega) (by omega)

/-- C4 witness: the everywhere-empty stream with a clock that jumps
past the deadline at the first loop check returns the empty byte
string. -/
theorem write_timeout_witness :
    write (fun _ => ([] : List Nat)) (fun i => if i = 0 then (0 : ℚ) else 1) 5 = some [] := by
  have hnil : ∀ i, accumW (fun _ => ([] : List Nat)) i = [] := by
    intro i
    induction i with
    | zero => rfl
    | succ n ih => simp [accumW, ih]
  have h := write_timeout_returns_accumulated (fun _ => ([] : List Nat))
    (fun i => if i = 0 then (0 : ℚ) else 1) 1 5
    (fun i => by rw [hnil i]; decide)
    (le_refl 1) (by norm_num) (fun i h1 h2 => by omega) (by omega)
  rw [h, hnil 1]

/-- C8: a buffer of length exactly 1 always passes the continuation
test (so the loop performs at least one more read), success of the
exit test requires at least two bytes with the last two equal to CRLF,
and on a one-byte buffer the loop with fuel left steps to one more
read followed by the deadline check. -/
theorem write_len_one_never_exits :
    (∀ r : List Nat, r.length = 1 → contCond r = true) ∧
    (∀ r : List Nat, contCond r = false → 2 ≤ r.length ∧ lastTwo r = crlf) ∧
    (∀ (readAt : Nat → List Nat) (clock : Nat → ℚ) (fuel i : Nat) (r : List Nat),
      r.length = 1 →
      writeRun readAt clock (fuel + 1) i r =
        if clock i - clock 0 > 1 / 10 then some (r ++ readAt i)
        else writeRun readAt clock fuel (i + 1) (r ++ readAt i)) := by
  refine ⟨?_, ?_, ?_⟩
  · intro r hr
    simp [contCond, hr]
  · intro r hr
    simp only [contCond, Bool.or_eq_false_iff, beq_eq_false_iff_ne, bne_eq_false_iff_eq] at hr
    refine ⟨?_, hr.2⟩
    match r, hr with
    | [], ⟨h1, h2⟩ => exact absurd h2 (by decide)
    | [a], ⟨h1, h2⟩ => exact absurd rfl h1
    | a :: b :: t, _ =>
      simp only [List.length_cons]
      omega
  · intro readAt clock fuel i r hr
    have hc : contCond r = true := by simp [contCond, hr]
    simp [writeRun, hc]

/-- C8 witness: the lone newline byte still passes the continuation
test, and the loop on it performs one more read before anything
else. -/
theorem write_len_one_witness :
    contCond [10] = true ∧
    writeRun (fun _ => [13, 10]) (fun _ => (0 : ℚ)) 2 1 [10] =
      if (fun _ => (0 : ℚ)) 1 - (fun _ => (0 : ℚ)) 0 > 1 / 10 then
        some ([10] ++ (fun _ => ([13, 10] : List Nat)) 1)
      else writeRun (fun _ => [13, 10]) (fun _ => (0 : ℚ)) 1 2 ([10] ++ (fun _ => ([13, 10] : List Nat)) 1) :=
  ⟨write_len_one_never_exits.1 [10] rfl,
   write_len_one_never_exits.2.2 (fun _ => [13, 10]) (fun _ => (0 : ℚ)) 1 1 [10] rfl⟩

/-- C5 counterexample: a variable name containing a tab is not altered
by the code, so its query command differs from the one built from the
whitespace-stripped name. -/
theorem format_query_tab_counterexample :
    format_query (chars "a\tb") = chars "a\tb?" ∧
    format_query (stripWhitespaceSpec (chars "a\tb")) = chars "ab?" ∧
    format_query (chars "a\tb") ≠ format_query (stripWhitespaceSpec (chars "a\tb")) :=
  ⟨by decide, by decide, by decide⟩

/-- C5 (amended): the three formatters are invariant under removing
space characters (only the space character is stripped, so only
space-containing names normalise; other whitespace such as tabs is
kept), every command line ends in its final command character followed
by exactly one newline, and the stripped name portion contains no
space character. -/
theorem format_commands_space_stripping (var val : List Char) :
    format_query var = format_query (stripSpaces var) ∧
    format_assignment var val = format_assignment (stripSpaces var) val ∧
    format_increment var val = format_increment (stripSpaces var) val ∧
    lastTwo (sendLine (format_query var)) = [ '?', '\n'] ∧
    lastTwo (sendLine (format_assignment var val)) = [ ')', '\n'] ∧
    lastTwo (sendLine (format_increment var val)) = [ ')', '\n'] ∧
    ' ' ∉ stripSpaces var := by
  refine ⟨?_, ?_, ?_, ?_, ?_, ?_, ?_⟩
  · simp [format_query, stripSpaces_idem]
  · simp [format_assignment, stripSpaces_idem]
  · simp [format_increment, stripSpaces_idem]
  · have h : sendLine (format_query var) = stripSpaces var ++ [ '?', '\n'] := by
      simp [sendLine, format_query]
    rw [h]
    exact lastTwo_concat_concat _ _ _
  · have h : sendLine (format_assignment var val) =
        (stripSpaces var ++ [ ' ', '=', ' '] ++ [ '('] ++ val) ++ [ ')', '\n'] := by
      simp [sendLine, format_assignment, wrapParens]
    rw [h]
    exact lastTwo_concat_concat _ _ _
  · have h : sendLine (format_increment var val) =
        (stripSpaces var ++ [ ' ', '+', '=', ' '] ++ [ '('] ++ val) ++ [ ')', '\n'] := by
      simp [sendLine, format_increment, wrapParens]
    rw [h]
    exact lastTwo_concat_concat _ _ _
  · simp [stripSpaces]

/-- C6: assignment and increment commands have the exact shape
`name = (value)` and `name += (value)` with the (space-stripped) name,
the value wrapped in exactly one added pair of parentheses, and the
value characters untouched; the parenthesis counts of the output are
those of the inputs plus exactly one pair. -/
theorem set_and_increment_wrap_value (var val : List Char) :
    format_assignment var val =
      stripSpaces var ++ [ ' ', '=', ' '] ++ ([ '('] ++ val ++ [ ')']) ∧
    format_increment var val =
      stripSpaces var ++ [ ' ', '+', '=', ' '] ++ ([ '('] ++ val ++ [ ')']) ∧
    (format_assignment var val).count '(' =
      (stripSpaces var).count '(' + val.count '(' + 1 ∧
    (format_assignment var val).count ')' =
      (stripSpaces var).count ')' + val.count ')' + 1 := by
  refine ⟨rfl, rfl, ?_, ?_⟩
  · have h1 : ([ ' ', '=', ' '] : List Char).count '(' = 0 := by decide
    have h2 : ([ '('] : List Char).count '(' = 1 := by decide
    have h3 : ([ ')'] : List Char).count '(' = 0 := by decide
    simp only [format_assignment, wrapParens, List.count_append, h1, h2, h3]
    omega
  · have h1 : ([ ' ', '=', ' '] : List Char).count ')' = 0 := by decide
    have h2 : ([ '('] : List Char).count ')' = 0 := by decide
    have h3 : ([ ')'] : List Char).count ')' = 1 := by decide
    simp only [format_assignment, wrapParens, List.count_append, h1, h2, h3]
    omega

/-- C2 counterexample: a response consisting of the single byte 255 is
not valid UTF-8; `read_numeric` surfaces the distinct UnicodeDecodeError, not
the per-channel ReadError the claim promises. -/
theorem read_undecodable_counterexample :
    read_numeric (fun _ => [255]) (ChannelRef.num 1) = Except.error PyError.unicodeDecodeError ∧
    PyError.unicodeDecodeError ≠
      PyError.runtimeError (chars "Unable to read from channel In1") :=
  ⟨rfl, by decide⟩

/-- C2 (amended): for every response whose bytes are not valid UTF-8,
`read_numeric` raises the distinct UnicodeDecodeError coming from
`bytes.decode`; the decoding failure is not folded into the ReadError
for the channel. -/
theorem read_undecodable_raises (dev : List Char → List Nat) (ch : ChannelRef)
    (h : utf8Decode (dev (readQueryCmd ch)) = none) :
    read_numeric dev ch = Except.error PyError.unicodeDecodeError := by
  simp [read_numeric, h]

/-- C2 witness: the amended statement at the one-byte response 255. -/
theorem read_undecodable_raises_witness :
    utf8Decode ((fun _ => ([255] : List Nat)) (readQueryCmd (ChannelRef.num 3))) = none ∧
    read_numeric (fun _ => ([255] : List Nat)) (ChannelRef.num 3) =
      Except.error PyError.unicodeDecodeError :=
  ⟨by decide, read_undecodable_raises (fun _ => ([255] : List Nat)) (ChannelRef.num 3) (by decide)⟩

/-- C3: on a decodable response, `read_numeric` returns the first substring
matching the signed decimal pattern parsed as a number, and raises the
ReadError naming the channel when no substring matches; in particular
`23.841 CRLF` gives 23.841, `Temp: -0.5 C CRLF` gives -0.5 and
`No Value CRLF` raises the ReadError. -/
theorem read_numeric_scan :
    (∀ (dev : List Char → List Nat) (ch : ChannelRef) (text : List Char),
      utf8Decode (dev (readQueryCmd ch)) = some text →
      (∀ m, reSearch text = some m → read_numeric dev ch = Except.ok (parseDecimal m)) ∧
      (reSearch text = none →
        read_numeric dev ch = Except.error (PyError.runtimeError
          (chars "Unable to read from channel " ++ resolve_channel ch)))) ∧
    read_numeric (fun _ => asciiBytes "23.841\r\n") (ChannelRef.num 1) = Except.ok ((23841 : ℚ) / 1000) ∧
    read_numeric (fun _ => asciiBytes "Temp: -0.5 C\r\n") (ChannelRef.num 1) = Except.ok (-(1 / 2 : ℚ)) ∧
    read_numeric (fun _ => asciiBytes "No Value\r\n") (ChannelRef.num 1) =
      Except.error (PyError.runtimeError (chars "Unable to read from channel In1")) := by
  refine ⟨?_, ?_, ?_, ?_⟩
  · intro dev ch text h
    constructor
    · intro m hm
      simp [read_numeric, h, hm]
    · intro hn
      simp [read_numeric, h, hn]
  · have h : read_numeric (fun _ => asciiBytes "23.841\r\n") (ChannelRef.num 1) =
        Except.ok (((23 : ℕ) : ℚ) + ((841 : ℕ) : ℚ) / (10 : ℚ) ^ 3) := rfl
    rw [h]
    norm_num
  · have h : read_numeric (fun _ => asciiBytes "Temp: -0.5 C\r\n") (ChannelRef.num 1) =
        Except.ok (-(((0 : ℕ) : ℚ) + ((5 : ℕ) : ℚ) / (10 : ℚ) ^ 1)) := rfl
    rw [h]
    norm_num
  · rfl

/-- C3 witness: the scan clause applied to a concrete decodable
response with a label in front of the number. -/
theorem read_numeric_scan_witness :
    reSearch (chars "x 9.25 K") = some (chars "9.25") ∧
    read_numeric (fun _ => asciiBytes "x 9.25 K") (ChannelRef.num 2) =
      Except.ok (parseDecimal (chars "9.25")) :=
  ⟨by decide,
   (read_numeric_scan.1 (fun _ => asciiBytes "x 9.25 K") (ChannelRef.num 2)
      (chars "x 9.25 K") (by decide)).1 (chars "9.25") (by decide)⟩

/-- C7: the tuning procedure performs exactly the fixed sequence of
StepY and Lag assignments, heater enable, Type and Mode set to Auto,
the sleep for Lag seconds, and the PID.Mode query; a decoded reply
exactly equal to `On CRLF` appends the success report, PID disabling
and the menu press, while any other decoded reply appends only the
failure report, with no exception either way. -/
theorem tunePID_trace (dev : List Char → List Nat) (pyStr : ℚ → List Char)
    (ch : Nat) (StepY Lag : ℚ) (text : List Char)
    (h : utf8Decode (dev (format_query (outCh ch ++ chars ".PID.Mode"))) = some text) :
    tunePID dev pyStr ch StepY Lag =
      some (preEvents pyStr ch StepY Lag ++
        (if text = chars "On\r\n" then tuneSuccessEvents ch else tuneFailEvents)) := by
  simp only [tunePID, h]
  by_cases hc : text = chars "On\r\n" <;> simp [hc]

/-- C7 witness: a device replying exactly `On CRLF` to the final query
produces the success trace. -/
theorem tunePID_trace_witness :
    tunePID (fun _ => asciiBytes "On\r\n") (fun _ => chars "1") 1 1 2 =
      some (preEvents (fun _ => chars "1") 1 1 2 ++
        (if chars "On\r\n" = chars "On\r\n" then tuneSuccessEvents 1 else tuneFailEvents)) :=
  tunePID_trace (fun _ => asciiBytes "On\r\n") (fun _ => chars "1") 1 1 2 (chars "On\r\n")
    (by decide)

/-- C9: a string channel resolves to itself, a numeric channel n to
`In<n>`; in particular 1 resolves to `In1` and `Out2.PID.setpoint` is
kept unchanged; and `read_numeric` queries the resolved name with `.value`
appended (space-stripped, with the query mark). -/
theorem resolve_channel_spec :
    (∀ s : List Char, resolve_channel (ChannelRef.name s) = s) ∧
    (∀ n : Int, resolve_channel (ChannelRef.num n) = chars "In" ++ chars (toString n)) ∧
    resolve_channel (ChannelRef.num 1) = chars "In1" ∧
    resolve_channel (ChannelRef.name (chars "Out2.PID.setpoint")) = chars "Out2.PID.setpoint" ∧
    (∀ ch : ChannelRef, readQueryCmd ch =
      stripSpaces (resolve_channel ch ++ chars ".value") ++ [ '?']) :=
  ⟨fun _ => rfl, fun _ => rfl, by decide, rfl, fun _ => rfl⟩

/-- C10: `disableAlarm` sends the `alarm.mode = (Off)` assignment but
returns None for every device, while `setAlarm` returns the device
response to its final `alarm.mode = (Level)` assignment, which is also
the last command it sends. -/
theorem alarm_return_values (dev : List Char → List Nat) (ch : ChannelRef)
    (tmin tmax : List Char) :
    (disableAlarm dev ch).2 = none ∧
    (disableAlarm dev ch).1 =
      [format_assignment (resolve_channel ch ++ chars ".alarm.mode") (chars "Off")] ∧
    (setAlarm dev ch tmin tmax).2 =
      some (dev (format_assignment (resolve_channel ch ++ chars ".alarm.mode") (chars "Level"))) ∧
    (setAlarm dev ch tmin tmax).1.getLast? =
      some (format_assignment (resolve_channel ch ++ chars ".alarm.mode") (chars "Level")) :=
  ⟨rfl, rfl, rfl, rfl⟩
